import Mathlib

/-
Verification of the budsjetto ledger core (src/src-tauri/src/lib.rs).

Shallow embedding conventions:
- Rust f64 monetary amounts are modelled as exact rationals (ℚ); all the
  claims under study are about the algebraic/structural behaviour of the
  aggregations, not about IEEE rounding.
- Each Tauri command `fn f(args, state) -> Result<T, String>` becomes a pure
  Lean function `AppData → Except String T × AppData`: the second component is
  the in-memory state after the call (unchanged on an error return, exactly
  as in the Rust, where validation returns before any mutation).
- `Uuid::new_v4()` is modelled by an explicit `newId` argument.
- File persistence (`fs::write` after each mutation) is an external
  collaborator with no effect on the in-memory state and is omitted.
- `chrono::NaiveDate::parse_from_str(s, "%Y-%m-%d")` and the ISO-week /
  civil-calendar arithmetic are external library calls; they are modelled by
  the executable `parse_date`, `daysFromCivil`, `civilFromDays` and
  `isoWeekOf` below (proleptic Gregorian calendar, four-digit years).
-/

/- Batteries marks the rational-number operations `@[irreducible]`, which
blocks the evaluation of concrete ledger states by `decide`; restore the
default reducibility for them so the examples below compute. -/
attribute [local semireducible] Rat.add Rat.mul Rat.sub Rat.inv Rat.ofScientific

namespace Budsjetto

/-- Mirrors `struct BudgetEntry` (lib.rs lines 10-20). -/
structure BudgetEntry where
  id : String
  entry_type : String
  amount : ℚ
  currency : String
  category : String
  date : String
  description : String
deriving DecidableEq

/-- Mirrors `struct TripExpense` (lib.rs lines 23-30). -/
structure TripExpense where
  id : String
  amount : ℚ
  category : String
  description : String
  date : String
deriving DecidableEq

/-- Mirrors `struct Trip` (lib.rs lines 32-43). -/
structure Trip where
  id : String
  name : String
  destination : String
  budget : ℚ
  currency : String
  start_date : String
  end_date : String
  expenses : List TripExpense
  total_spent : ℚ
deriving DecidableEq

/-- Mirrors `struct AppData` (lib.rs lines 45-51). -/
structure AppData where
  selected_currency : String
  entries : List BudgetEntry
  trips : List Trip
deriving DecidableEq

/-- Mirrors `impl Default for AppData` (lib.rs lines 53-61). -/
def AppData.default : AppData :=
  { selected_currency := "NOK", entries := [], trips := [] }

/-- Mirrors `struct Summary` (lib.rs lines 63-69). -/
structure Summary where
  total_income : ℚ
  total_expenses : ℚ
  net_balance : ℚ
  currency : String
deriving DecidableEq

/-- Mirrors `convert_currency` (lib.rs lines 83-92): identity when the codes
are equal, a single shared rate 11.7 for the NOK/EUR pair, and an identity
fallback for every other pair.  The `match` over the two string pairs is
written as the equivalent if-chain. -/
def convert_currency (amount : ℚ) (fromC toC : String) : ℚ :=
  if fromC = toC then amount
  else if fromC = "NOK" ∧ toC = "EUR" then amount / 11.7
  else if fromC = "EUR" ∧ toC = "NOK" then amount * 11.7
  else amount

/-! ### Date parsing and calendar arithmetic (model of the chrono collaborator) -/

/-- Splits a character list at every dash, keeping empty groups, the way
`"%Y-%m-%d"` parsing decomposes the date string into its three fields. -/
def splitOnDash : List Char → List (List Char)
  | [] => [[]]
  | c :: rest =>
    match splitOnDash rest with
    | [] => [[]]
    | g :: gs => if c = '-' then [] :: g :: gs else (c :: g) :: gs

/-- Decimal value of a digit string. -/
def digitsToNat (cs : List Char) : Nat :=
  cs.foldl (fun a c => a * 10 + (c.toNat - 48)) 0

/-- Proleptic Gregorian leap-year rule. -/
def isLeapYear (y : Nat) : Bool :=
  y % 4 = 0 ∧ (y % 100 ≠ 0 ∨ y % 400 = 0)

/-- Number of days in a month of the proleptic Gregorian calendar. -/
def daysInMonth (y m : Nat) : Nat :=
  if m = 2 then (if isLeapYear y then 29 else 28)
  else if m = 4 ∨ m = 6 ∨ m = 9 ∨ m = 11 then 30
  else 31

/-- Model of `chrono::NaiveDate::parse_from_str(s, "%Y-%m-%d")` for four-digit
years: the string must be exactly three dash-separated digit groups (year of
width 4, month and day of width 1 or 2), and the components must form a valid
calendar date.  Returns `(year, month, day)` on success, `none` on any parse
or validity failure. -/
def parse_date (s : String) : Option (Nat × Nat × Nat) :=
  match splitOnDash s.data with
  | [ys, ms, ds] =>
    if ys.length = 4 ∧ ys.all Char.isDigit ∧
       1 ≤ ms.length ∧ ms.length ≤ 2 ∧ ms.all Char.isDigit ∧
       1 ≤ ds.length ∧ ds.length ≤ 2 ∧ ds.all Char.isDigit then
      let y := digitsToNat ys
      let m := digitsToNat ms
      let d := digitsToNat ds
      if 1 ≤ m ∧ m ≤ 12 ∧ 1 ≤ d ∧ d ≤ daysInMonth y m then some (y, m, d) else none
    else none
  | _ => none

/-- Day count of a civil date from the epoch 1970-01-01 (the `days_from_civil`
algorithm of Howard Hinnant), modelling the internal day numbering of chrono. -/
def daysFromCivil (y0 : Int) (m d : Nat) : Int :=
  let y := if m ≤ 2 then y0 - 1 else y0
  let era := Int.fdiv y 400
  let yoe := (y - era * 400).toNat
  let doy := (153 * (if m > 2 then m - 3 else m + 9) + 2) / 5 + d - 1
  let doe := yoe * 365 + yoe / 4 - yoe / 100 + doy
  era * 146097 + (doe : Int) - 719468

/-- Inverse of `daysFromCivil` (the `civil_from_days` algorithm): the civil date
`(year, month, day)` of an epoch day count. -/
def civilFromDays (z0 : Int) : Int × Nat × Nat :=
  let z := z0 + 719468
  let era := Int.fdiv z 146097
  let doe := (z - era * 146097).toNat
  let yoe := (doe - doe / 1460 + doe / 36524 - doe / 146096) / 365
  let doy := doe - (365 * yoe + yoe / 4 - yoe / 100)
  let mp := (5 * doy + 2) / 153
  let d := doy - (153 * mp + 2) / 5 + 1
  let m := if mp < 10 then mp + 3 else mp - 9
  ((yoe : Int) + era * 400 + (if m ≤ 2 then 1 else 0), m, d)

/-- Day-of-week test helper: the `p(y)` quantity of the ISO-8601 long-year
rule, the weekday of 31 December of year `y`. -/
def isoPCal (y : Int) : Int :=
  (y + Int.fdiv y 4 - Int.fdiv y 100 + Int.fdiv y 400).emod 7

/-- Number of ISO-8601 weeks in year `y` (52 or 53). -/
def isoWeeksInYear (y : Int) : Int :=
  if isoPCal y = 4 ∨ isoPCal (y - 1) = 3 then 53 else 52

/-- Model of the chrono `NaiveDate::iso_week()` call: the `(iso year, iso week)` pair
of a civil date, computed from the ordinal day and the ISO weekday. -/
def isoWeekOf (y m d : Nat) : Int × Int :=
  let days := daysFromCivil (y : Int) m d
  let wd := (days + 3).emod 7 + 1
  let doy := days - daysFromCivil (y : Int) 1 1 + 1
  let w := (10 + doy - wd) / 7
  if w < 1 then ((y : Int) - 1, isoWeeksInYear ((y : Int) - 1))
  else if w > isoWeeksInYear (y : Int) then ((y : Int) + 1, 1)
  else ((y : Int), w)

/-! ### Tauri commands over the in-memory state -/

/-- Mirrors `add_entry` (lib.rs lines 121-158): validates the amount and the
kind, then appends a new entry whose currency is the selected display
currency; `newId` stands for `Uuid::new_v4()`.  On an error return the state
component is the unchanged input state. -/
def add_entry (entry_type : String) (amount : ℚ)
    (category date description newId : String) (st : AppData) :
    Except String BudgetEntry × AppData :=
  if amount ≤ 0 then (Except.error "Amount must be positive", st)
  else if entry_type ≠ "income" ∧ entry_type ≠ "expense" then
    (Except.error "Type must be \x27income\x27 or \x27expense\x27", st)
  else
    let entry : BudgetEntry :=
      { id := newId, entry_type := entry_type, amount := amount,
        currency := st.selected_currency, category := category,
        date := date, description := description }
    (Except.ok entry, { st with entries := st.entries ++ [entry] })

/-- Mirrors `delete_entry` (lib.rs lines 160-177): `retain` keeps the entries
whose id differs, and the not-found case is detected by comparing lengths. -/
def delete_entry (id : String) (st : AppData) : Except String Unit × AppData :=
  let remaining := st.entries.filter (fun e => e.id != id)
  if remaining.length = st.entries.length then (Except.error "Entry not found", st)
  else (Except.ok (), { st with entries := remaining })

/-- Mirrors `get_all_entries` (lib.rs lines 179-198): each entry is cloned
and, when its stored currency differs from the selected one, its amount is
converted and its currency tag rewritten; the state is only read. -/
def get_all_entries (st : AppData) : List BudgetEntry :=
  st.entries.map (fun e =>
    if e.currency ≠ st.selected_currency then
      { e with
        amount := convert_currency e.amount e.currency st.selected_currency,
        currency := st.selected_currency }
    else e)

/-- Mirrors `get_weekly_summary` (lib.rs lines 200-227): entries whose date
parses and falls in the requested ISO week and ISO year are converted to the
display currency and accumulated by kind; unparsable dates are skipped. -/
def get_weekly_summary (week : Nat) (year : Int) (st : AppData) : Summary :=
  let r := st.entries.foldl (fun acc e =>
    match parse_date e.date with
    | some (y, m, d) =>
      if (isoWeekOf y m d).2 = (week : Int) ∧ (isoWeekOf y m d).1 = year then
        let amount := convert_currency e.amount e.currency st.selected_currency
        if e.entry_type = "income" then (acc.1 + amount, acc.2)
        else (acc.1, acc.2 + amount)
      else acc
    | none => acc) ((0 : ℚ), (0 : ℚ))
  { total_income := r.1, total_expenses := r.2,
    net_balance := r.1 - r.2, currency := st.selected_currency }

/-- Mirrors `get_monthly_summary` (lib.rs lines 229-256): entries whose date
parses and falls in the requested calendar month and year are converted to
the display currency and accumulated by kind; unparsable dates are skipped. -/
def get_monthly_summary (month : Nat) (year : Int) (st : AppData) : Summary :=
  let r := st.entries.foldl (fun acc e =>
    match parse_date e.date with
    | some (y, m, _) =>
      if m = month ∧ (y : Int) = year then
        let amount := convert_currency e.amount e.currency st.selected_currency
        if e.entry_type = "income" then (acc.1 + amount, acc.2)
        else (acc.1, acc.2 + amount)
      else acc
    | none => acc) ((0 : ℚ), (0 : ℚ))
  { total_income := r.1, total_expenses := r.2,
    net_balance := r.1 - r.2, currency := st.selected_currency }

/-- Mirrors `set_currency` (lib.rs lines 258-273): rejects any code other
than the two supported ones, otherwise overwrites only the selected display
currency field. -/
def set_currency (currency : String) (st : AppData) : Except String Unit × AppData :=
  if currency ≠ "NOK" ∧ currency ≠ "EUR" then
    (Except.error "Currency must be \x27NOK\x27 or \x27EUR\x27", st)
  else (Except.ok (), { st with selected_currency := currency })

/-- Mirrors `struct CategorySummary` (lib.rs lines 281-287). -/
structure CategorySummary where
  category : String
  total : ℚ
  percentage : ℚ
  count : Nat
deriving DecidableEq

/-- Mirrors `struct CategoryAnalytics` (lib.rs lines 289-296). -/
structure CategoryAnalytics where
  income_by_category : List CategorySummary
  expense_by_category : List CategorySummary
  total_income : ℚ
  total_expenses : ℚ
  currency : String
deriving DecidableEq

/-- The per-entry filter of `get_category_analytics` (lib.rs lines 314-322):
when both a month and a year are given AND the date of the entry parses, the entry
is dropped (`continue`) on a month/year mismatch; in every other case —
including a date that fails to parse — the entry falls through and is kept. -/
def passesFilter (month : Option Nat) (year : Option Int) (e : BudgetEntry) : Bool :=
  match month, year with
  | some m, some y =>
    match parse_date e.date with
    | some (py, pm, _) => if pm ≠ m ∨ (py : Int) ≠ y then false else true
    | none => true
  | _, _ => true

/-- The category map of `get_category_analytics`, modelled as an association
list with the HashMap `entry(...).or_insert((0.0, 0))` update: add the amount
and bump the count on the existing key, or append a fresh `(cat, amount, 1)`
binding. -/
def mapInsert : List (String × ℚ × Nat) → String → ℚ → List (String × ℚ × Nat)
  | [], cat, amount => [(cat, amount, 1)]
  | (c, t, n) :: rest, cat, amount =>
    if c = cat then (c, t + amount, n + 1) :: rest
    else (c, t, n) :: mapInsert rest cat amount

/-- Accumulator of the `get_category_analytics` loop: the two category maps
and the two kind totals. -/
structure AnalyticsAcc where
  income_map : List (String × ℚ × Nat)
  expense_map : List (String × ℚ × Nat)
  total_income : ℚ
  total_expenses : ℚ
deriving DecidableEq

/-- One iteration of the `get_category_analytics` loop (lib.rs lines
314-339): apply the filter, convert the amount, then add it to the matching
total and category map of the matching kind. -/
def analyticsStep (sel : String) (month : Option Nat) (year : Option Int)
    (acc : AnalyticsAcc) (e : BudgetEntry) : AnalyticsAcc :=
  if passesFilter month year e then
    let amount := convert_currency e.amount e.currency sel
    if e.entry_type = "income" then
      { acc with income_map := mapInsert acc.income_map e.category amount,
                 total_income := acc.total_income + amount }
    else
      { acc with expense_map := mapInsert acc.expense_map e.category amount,
                 total_expenses := acc.total_expenses + amount }
  else acc

/-- Mirrors `get_category_analytics` (lib.rs lines 298-376): fold the loop
over the entries, then render each map binding as a `CategorySummary` with a
percentage of the kind total (0 when that total is not positive). -/
def get_category_analytics (month : Option Nat) (year : Option Int)
    (st : AppData) : CategoryAnalytics :=
  let acc := st.entries.foldl (analyticsStep st.selected_currency month year)
    { income_map := [], expense_map := [], total_income := 0, total_expenses := 0 }
  { income_by_category := acc.income_map.map (fun b =>
      { category := b.1, total := b.2.1,
        percentage := if acc.total_income > 0 then b.2.1 / acc.total_income * 100 else 0,
        count := b.2.2 }),
    expense_by_category := acc.expense_map.map (fun b =>
      { category := b.1, total := b.2.1,
        percentage := if acc.total_expenses > 0 then b.2.1 / acc.total_expenses * 100 else 0,
        count := b.2.2 }),
    total_income := acc.total_income,
    total_expenses := acc.total_expenses,
    currency := st.selected_currency }

/-- Mirrors `struct MonthlyTrend` (lib.rs lines 410-418). -/
structure MonthlyTrend where
  month : Nat
  year : Int
  month_name : String
  income : ℚ
  expenses : ℚ
  net : ℚ
deriving DecidableEq

/-- The `month_names` array lookup of `get_monthly_trends` (lib.rs lines
449-456); the index `month - 1` is always in range for a calendar month. -/
def monthName (m : Nat) : String :=
  ["Jan", "Feb", "Mar", "Apr", "May", "Jun",
   "Jul", "Aug", "Sep", "Oct", "Nov", "Dec"].getD (m - 1) ""

/-- Mirrors `get_monthly_trends` (lib.rs lines 420-465), with `today` — the
epoch day count of `chrono::Local::now()` — made an explicit argument: for
each `i < months` the target month is the civil month of `today - i * 30`
days, aggregated exactly like the monthly summary, and the points are
reversed into oldest-to-newest order. -/
def get_monthly_trends (months : Nat) (today : Int) (st : AppData) :
    List MonthlyTrend :=
  ((List.range months).map (fun i =>
    let c := civilFromDays (today - (i * 30 : Nat))
    let year := c.1
    let month := c.2.1
    let r := st.entries.foldl (fun acc e =>
      match parse_date e.date with
      | some (y, m, _) =>
        if m = month ∧ (y : Int) = year then
          let amount := convert_currency e.amount e.currency st.selected_currency
          if e.entry_type = "income" then (acc.1 + amount, acc.2)
          else (acc.1, acc.2 + amount)
        else acc
      | none => acc) ((0 : ℚ), (0 : ℚ))
    { month := month, year := year, month_name := monthName month,
      income := r.1, expenses := r.2, net := r.1 - r.2 })).reverse

/-- Mirrors `create_trip` (lib.rs lines 468-503): validates the budget, then
appends a trip in the selected display currency with an empty expense list
and a zero running total. -/
def create_trip (name destination : String) (budget : ℚ)
    (start_date end_date newId : String) (st : AppData) :
    Except String Trip × AppData :=
  if budget ≤ 0 then (Except.error "Budget must be positive", st)
  else
    let trip : Trip :=
      { id := newId, name := name, destination := destination, budget := budget,
        currency := st.selected_currency, start_date := start_date,
        end_date := end_date, expenses := [], total_spent := 0 }
    (Except.ok trip, { st with trips := st.trips ++ [trip] })

/-- Applies `f` to the first list element satisfying `p`, leaving the rest
unchanged: the effect of mutating through `iter_mut().find(...)`. -/
def updateFirst (p : Trip → Bool) (f : Trip → Trip) : List Trip → List Trip
  | [] => []
  | t :: ts => if p t then f t :: ts else t :: updateFirst p f ts

/-- Mirrors `add_trip_expense` (lib.rs lines 539-577): validates the amount,
finds the trip (first id match, else not-found), appends the new expense and
adds its raw amount to the running total of the trip. -/
def add_trip_expense (trip_id : String) (amount : ℚ)
    (category description date newId : String) (st : AppData) :
    Except String TripExpense × AppData :=
  if amount ≤ 0 then (Except.error "Amount must be positive", st)
  else
    match st.trips.find? (fun t => t.id == trip_id) with
    | none => (Except.error "Trip not found", st)
    | some _ =>
      let expense : TripExpense :=
        { id := newId, amount := amount, category := category,
          description := description, date := date }
      let trips' := updateFirst (fun t => t.id == trip_id)
        (fun t => { t with expenses := t.expenses ++ [expense],
                           total_spent := t.total_spent + amount })
        st.trips
      (Except.ok expense, { st with trips := trips' })

/-- Mirrors `delete_trip_expense` (lib.rs lines 598-628): finds the trip and
the expense (first id matches, else not-found), removes every expense with
that id (`retain`) and subtracts the amount of the found expense from the
running total of the trip. -/
def delete_trip_expense (trip_id expense_id : String) (st : AppData) :
    Except String Unit × AppData :=
  match st.trips.find? (fun t => t.id == trip_id) with
  | none => (Except.error "Trip not found", st)
  | some t =>
    match t.expenses.find? (fun e => e.id == expense_id) with
    | none => (Except.error "Expense not found", st)
    | some ex =>
      let trips' := updateFirst (fun tr => tr.id == trip_id)
        (fun tr => { tr with
          expenses := tr.expenses.filter (fun e => e.id != expense_id),
          total_spent := tr.total_spent - ex.amount })
        st.trips
      (Except.ok (), { st with trips := trips' })

/-! ### Spec-side observation functions -/

/-- The amount of an entry converted into the display currency `sel`. -/
def convAmount (sel : String) (e : BudgetEntry) : ℚ :=
  convert_currency e.amount e.currency sel

/-- Sum, in the display currency, of the amounts of the entries that pass the
date filter `P` and have kind exactly `"income"`. -/
def sumIncome (P : BudgetEntry → Bool) (sel : String) (l : List BudgetEntry) : ℚ :=
  ((l.filter fun e => P e && decide (e.entry_type = "income")).map (convAmount sel)).sum

/-- Sum, in the display currency, of the amounts of the entries that pass the
date filter `P` and have any kind other than `"income"`. -/
def sumExpense (P : BudgetEntry → Bool) (sel : String) (l : List BudgetEntry) : ℚ :=
  ((l.filter fun e => P e && ! decide (e.entry_type = "income")).map (convAmount sel)).sum

/-- Date filter of the monthly summary: the date of the entry parses as
`YYYY-MM-DD` and falls in the given calendar month and year. -/
def inMonthB (month : Nat) (year : Int) (e : BudgetEntry) : Bool :=
  match parse_date e.date with
  | some (y, m, _) => decide (m = month) && decide ((y : Int) = year)
  | none => false

/-- Date filter of the weekly summary: the date of the entry parses and falls in
the given ISO week and ISO year. -/
def inWeekB (week : Nat) (year : Int) (e : BudgetEntry) : Bool :=
  match parse_date e.date with
  | some (y, m, d) =>
    decide ((isoWeekOf y m d).2 = (week : Int)) && decide ((isoWeekOf y m d).1 = year)
  | none => false

/-! ### Helper lemmas -/

theorem foldl_pair_filter (P : BudgetEntry → Bool) (sel : String)
    (step : ℚ × ℚ → BudgetEntry → ℚ × ℚ)
    (hstep : ∀ acc e, step acc e =
      if P e then
        (if e.entry_type = "income" then (acc.1 + convAmount sel e, acc.2)
         else (acc.1, acc.2 + convAmount sel e))
      else acc) :
    ∀ (l : List BudgetEntry) (a b : ℚ),
      l.foldl step (a, b) = (a + sumIncome P sel l, b + sumExpense P sel l) := by
  intro l
  induction l with
  | nil => intro a b; simp [sumIncome, sumExpense]
  | cons e tl ih =>
    intro a b
    rw [List.foldl_cons, hstep]
    by_cases hP : P e = true
    · by_cases ht : e.entry_type = "income"
      · simp only [hP, if_true, ht, ite_true]
        rw [ih]
        simp [sumIncome, sumExpense, List.filter_cons, hP, ht, add_assoc]
      · simp only [hP, if_true, ht, ite_false]
        rw [ih]
        simp [sumIncome, sumExpense, List.filter_cons, hP, ht, add_assoc]
    · simp only [Bool.not_eq_true] at hP
      simp only [hP, Bool.false_eq_true, if_false]
      rw [ih]
      simp [sumIncome, sumExpense, List.filter_cons, hP]

theorem monthly_foldl (month : Nat) (year : Int) (sel : String) :
    ∀ (l : List BudgetEntry) (a b : ℚ),
      l.foldl (fun acc e =>
        match parse_date e.date with
        | some (y, m, _) =>
          if m = month ∧ (y : Int) = year then
            let amount := convert_currency e.amount e.currency sel
            if e.entry_type = "income" then (acc.1 + amount, acc.2)
            else (acc.1, acc.2 + amount)
          else acc
        | none => acc) (a, b)
      = (a + sumIncome (inMonthB month year) sel l,
         b + sumExpense (inMonthB month year) sel l) := by
  refine foldl_pair_filter _ _ _ ?_
  intro acc e
  cases hp : parse_date e.date with
  | none => simp [inMonthB, hp]
  | some v =>
    obtain ⟨y, m, d⟩ := v
    by_cases h : m = month ∧ (y : Int) = year
    · simp [inMonthB, hp, convAmount, h]
    · simp [inMonthB, hp, convAmount, h]

theorem weekly_foldl (week : Nat) (year : Int) (sel : String) :
    ∀ (l : List BudgetEntry) (a b : ℚ),
      l.foldl (fun acc e =>
        match parse_date e.date with
        | some (y, m, d) =>
          if (isoWeekOf y m d).2 = (week : Int) ∧ (isoWeekOf y m d).1 = year then
            let amount := convert_currency e.amount e.currency sel
            if e.entry_type = "income" then (acc.1 + amount, acc.2)
            else (acc.1, acc.2 + amount)
          else acc
        | none => acc) (a, b)
      = (a + sumIncome (inWeekB week year) sel l,
         b + sumExpense (inWeekB week year) sel l) := by
  refine foldl_pair_filter _ _ _ ?_
  intro acc e
  cases hp : parse_date e.date with
  | none => simp [inWeekB, hp]
  | some v =>
    obtain ⟨y, m, d⟩ := v
    by_cases h : (isoWeekOf y m d).2 = (week : Int) ∧ (isoWeekOf y m d).1 = year
    · simp [inWeekB, hp, convAmount, h]
    · simp [inWeekB, hp, convAmount, h]

theorem get_monthly_summary_spec (month : Nat) (year : Int) (st : AppData) :
    get_monthly_summary month year st =
      { total_income := sumIncome (inMonthB month year) st.selected_currency st.entries,
        total_expenses := sumExpense (inMonthB month year) st.selected_currency st.entries,
        net_balance := sumIncome (inMonthB month year) st.selected_currency st.entries
          - sumExpense (inMonthB month year) st.selected_currency st.entries,
        currency := st.selected_currency } := by
  unfold get_monthly_summary
  rw [monthly_foldl]
  simp

theorem get_weekly_summary_spec (week : Nat) (year : Int) (st : AppData) :
    get_weekly_summary week year st =
      { total_income := sumIncome (inWeekB week year) st.selected_currency st.entries,
        total_expenses := sumExpense (inWeekB week year) st.selected_currency st.entries,
        net_balance := sumIncome (inWeekB week year) st.selected_currency st.entries
          - sumExpense (inWeekB week year) st.selected_currency st.entries,
        currency := st.selected_currency } := by
  unfold get_weekly_summary
  rw [weekly_foldl]
  simp

theorem analytics_foldl_totals (sel : String) (month : Option Nat) (year : Option Int) :
    ∀ (l : List BudgetEntry) (acc : AnalyticsAcc),
      (l.foldl (analyticsStep sel month year) acc).total_income
        = acc.total_income + sumIncome (passesFilter month year) sel l ∧
      (l.foldl (analyticsStep sel month year) acc).total_expenses
        = acc.total_expenses + sumExpense (passesFilter month year) sel l := by
  intro l
  induction l with
  | nil => intro acc; simp [sumIncome, sumExpense]
  | cons e tl ih =>
    intro acc
    rw [List.foldl_cons]
    obtain ⟨ih1, ih2⟩ := ih (analyticsStep sel month year acc e)
    rw [ih1, ih2]
    by_cases hP : passesFilter month year e = true
    · by_cases ht : e.entry_type = "income"
      · constructor <;>
          simp [analyticsStep, hP, ht, sumIncome, sumExpense, List.filter_cons,
            convAmount, add_assoc]
      · constructor <;>
          simp [analyticsStep, hP, ht, sumIncome, sumExpense, List.filter_cons,
            convAmount, add_assoc]
    · simp only [Bool.not_eq_true] at hP
      constructor <;>
        simp [analyticsStep, hP, sumIncome, sumExpense, List.filter_cons]

theorem get_category_analytics_totals (month : Option Nat) (year : Option Int)
    (st : AppData) :
    (get_category_analytics month year st).total_income
      = sumIncome (passesFilter month year) st.selected_currency st.entries ∧
    (get_category_analytics month year st).total_expenses
      = sumExpense (passesFilter month year) st.selected_currency st.entries := by
  obtain ⟨h1, h2⟩ := analytics_foldl_totals st.selected_currency month year st.entries
    { income_map := [], expense_map := [], total_income := 0, total_expenses := 0 }
  constructor
  · calc (get_category_analytics month year st).total_income
        = (st.entries.foldl (analyticsStep st.selected_currency month year)
            { income_map := [], expense_map := [], total_income := 0,
              total_expenses := 0 }).total_income := rfl
      _ = _ := by rw [h1]; simp
  · calc (get_category_analytics month year st).total_expenses
        = (st.entries.foldl (analyticsStep st.selected_currency month year)
            { income_map := [], expense_map := [], total_income := 0,
              total_expenses := 0 }).total_expenses := rfl
      _ = _ := by rw [h2]; simp

theorem analytics_filter_vacuous (m : Nat) (y : Int) (st : AppData)
    (h : ∀ e ∈ st.entries, parse_date e.date = none) :
    get_category_analytics (some m) (some y) st
      = get_category_analytics none none st := by
  have hfold : st.entries.foldl (analyticsStep st.selected_currency (some m) (some y))
        { income_map := [], expense_map := [], total_income := 0, total_expenses := 0 }
      = st.entries.foldl (analyticsStep st.selected_currency none none)
        { income_map := [], expense_map := [], total_income := 0, total_expenses := 0 } :=
    List.foldl_ext _ _ _ (fun acc e he => by
      simp [analyticsStep, passesFilter, h e he])
  simp only [get_category_analytics, hfold]

theorem trends_point_spec (months : Nat) (today : Int) (st : AppData) :
    ∀ p ∈ get_monthly_trends months today st,
      p.income = sumIncome (inMonthB p.month p.year) st.selected_currency st.entries ∧
      p.expenses = sumExpense (inMonthB p.month p.year) st.selected_currency st.entries := by
  intro p hp
  unfold get_monthly_trends at hp
  rw [List.mem_reverse, List.mem_map] at hp
  obtain ⟨i, hi, rfl⟩ := hp
  simp only [monthly_foldl]
  simp

/-! ### Trip invariant apparatus -/

/-- The derived-value invariant of a trip — the running total equals the sum
of the expense amounts — together with uniqueness of the expense ids (the
`Uuid::new_v4()` freshness assumption made explicit). -/
def TripInv (t : Trip) : Prop :=
  t.total_spent = (t.expenses.map TripExpense.amount).sum ∧
  (t.expenses.map TripExpense.id).Nodup

theorem updateFirst_mem {p : Trip → Bool} {f : Trip → Trip} :
    ∀ {l : List Trip} {t' : Trip}, t' ∈ updateFirst p f l →
      t' ∈ l ∨ ∃ t, l.find? p = some t ∧ t' = f t := by
  intro l
  induction l with
  | nil => intro t' h; simp [updateFirst] at h
  | cons t ts ih =>
    intro t' h
    by_cases hp : p t = true
    · simp only [updateFirst, hp, if_true, List.mem_cons] at h
      rcases h with h | h
      · exact Or.inr ⟨t, by rw [List.find?_cons_of_pos _ hp], h⟩
      · exact Or.inl (List.mem_cons_of_mem _ h)
    · simp only [updateFirst, hp, Bool.false_eq_true, if_false, List.mem_cons] at h
      rcases h with h | h
      · exact Or.inl (by simp [h])
      · rcases ih h with h' | ⟨t₀, hfind, rfl⟩
        · exact Or.inl (List.mem_cons_of_mem _ h')
        · refine Or.inr ⟨t₀, ?_, rfl⟩
          rw [List.find?_cons_of_neg _ (by simp [hp]), hfind]

theorem sum_filter_ne_of_nodup {l : List TripExpense} {eid : String} {ex : TripExpense}
    (hnd : (l.map TripExpense.id).Nodup)
    (hfind : l.find? (fun e => e.id == eid) = some ex) :
    ((l.filter fun e => e.id != eid).map TripExpense.amount).sum
      = (l.map TripExpense.amount).sum - ex.amount := by
  induction l with
  | nil => simp at hfind
  | cons x xs ih =>
    simp only [List.map_cons, List.nodup_cons] at hnd
    obtain ⟨hx_notin, hnd'⟩ := hnd
    by_cases hx : x.id = eid
    · have hex : ex = x := by
        rw [List.find?_cons_of_pos _ (by simp [hx])] at hfind
        exact (Option.some.inj hfind).symm
      subst hex
      have hxs : xs.filter (fun e => e.id != eid) = xs := by
        refine List.filter_eq_self.mpr (fun e he => ?_)
        simp only [bne_iff_ne, ne_eq]
        intro heq
        exact hx_notin (by rw [hx, ← heq]; exact List.mem_map_of_mem _ he)
      simp [List.filter_cons, hx, hxs]
    · rw [List.find?_cons_of_neg _ (by simp [hx])] at hfind
      simp [List.filter_cons, hx, ih hnd' hfind]
      ring

theorem add_trip_expense_preserves {tid : String} {a : ℚ} {c dsc dt nid : String}
    {st : AppData} {e : TripExpense} {st' : AppData}
    (hinv : ∀ t ∈ st.trips, TripInv t)
    (hfresh : ∀ t ∈ st.trips, ∀ ex ∈ t.expenses, ex.id ≠ nid)
    (h : add_trip_expense tid a c dsc dt nid st = (Except.ok e, st')) :
    ∀ t ∈ st'.trips, TripInv t := by
  unfold add_trip_expense at h
  split at h
  · simp at h
  · split at h
    · simp at h
    · simp only [Prod.mk.injEq] at h
      obtain ⟨-, hst'⟩ := h
      subst hst'
      intro t' ht'
      simp only at ht'
      rcases updateFirst_mem ht' with h' | ⟨t, hf, rfl⟩
      · exact hinv t' h'
      · have htmem : t ∈ st.trips := List.mem_of_find?_eq_some hf
        obtain ⟨hsum, hnd⟩ := hinv t htmem
        constructor
        · simp [hsum, List.map_append, List.sum_append]
        · simp only [List.map_append, List.map_cons, List.map_nil]
          rw [List.nodup_append]
          refine ⟨hnd, List.nodup_singleton _, ?_⟩
          intro x hx hx'
          simp only [List.mem_singleton] at hx'
          subst hx'
          obtain ⟨ex, hex, hexid⟩ := List.mem_map.mp hx
          exact hfresh t htmem ex hex hexid

theorem delete_trip_expense_preserves {tid eid : String}
    {st st' : AppData}
    (hinv : ∀ t ∈ st.trips, TripInv t)
    (h : delete_trip_expense tid eid st = (Except.ok (), st')) :
    ∀ t ∈ st'.trips, TripInv t := by
  unfold delete_trip_expense at h
  split at h
  · simp at h
  · next t0 hft =>
    split at h
    · simp at h
    · next ex hfe =>
      simp only [Prod.mk.injEq] at h
      obtain ⟨-, hst'⟩ := h
      subst hst'
      intro t' ht'
      simp only at ht'
      rcases updateFirst_mem ht' with h' | ⟨t, hf, rfl⟩
      · exact hinv t' h'
      · have hteq : t = t0 := by rw [hft] at hf; exact (Option.some.inj hf).symm
        subst hteq
        have htmem : t ∈ st.trips := List.mem_of_find?_eq_some hft
        obtain ⟨hsum, hnd⟩ := hinv t htmem
        constructor
        · simp only
          rw [sum_filter_ne_of_nodup hnd hfe, hsum]
        · simp only
          exact hnd.sublist ((List.filter_sublist _).map TripExpense.id)

/-- One successful trip-expense mutation: an `add_trip_expense` with a fresh
expense id (the uuid freshness assumption) or a `delete_trip_expense`. -/
inductive TripStep : AppData → AppData → Prop where
  | add_exp : ∀ (tid : String) (a : ℚ) (c dsc dt nid : String) (e : TripExpense)
      (st st' : AppData),
      (∀ t ∈ st.trips, ∀ ex ∈ t.expenses, ex.id ≠ nid) →
      add_trip_expense tid a c dsc dt nid st = (Except.ok e, st') →
      TripStep st st'
  | del_exp : ∀ (tid eid : String) (st st' : AppData),
      delete_trip_expense tid eid st = (Except.ok (), st') →
      TripStep st st'

/-- Reflexive-transitive closure of `TripStep`: any finite sequence of
successful add/delete trip-expense operations. -/
def TripReachable : AppData → AppData → Prop :=
  Relation.ReflTransGen TripStep

theorem reachable_preserves {st st' : AppData} (h : TripReachable st st')
    (hinv : ∀ t ∈ st.trips, TripInv t) : ∀ t ∈ st'.trips, TripInv t := by
  induction h with
  | refl => exact hinv
  | tail _ hstep ih =>
    cases hstep with
    | add_exp tid a c dsc dt nid e s s' hfresh hcall =>
      exact add_trip_expense_preserves ih hfresh hcall
    | del_exp tid eid s s' hcall =>
      exact delete_trip_expense_preserves ih hcall

/-! ### Concrete example states used by witnesses and counterexamples -/

def exEntryIncome : BudgetEntry :=
  { id := "i1", entry_type := "income", amount := 500, currency := "NOK",
    category := "Salary", date := "2024-03-10", description := "" }

def exEntryExpense : BudgetEntry :=
  { id := "x1", entry_type := "expense", amount := 200, currency := "NOK",
    category := "Food", date := "2024-03-20", description := "" }

def exStMarch : AppData :=
  { selected_currency := "NOK", entries := [exEntryIncome, exEntryExpense], trips := [] }

def exEntryBadDate : BudgetEntry :=
  { id := "e1", entry_type := "expense", amount := 50, currency := "NOK",
    category := "Food", date := "bad", description := "" }

def exStBadDate : AppData :=
  { selected_currency := "NOK", entries := [exEntryBadDate], trips := [] }

def exEntryTransfer : BudgetEntry :=
  { id := "t1", entry_type := "transfer", amount := 42, currency := "NOK",
    category := "Misc", date := "2024-03-10", description := "" }

def exStTransfer : AppData :=
  { selected_currency := "NOK", entries := [exEntryTransfer], trips := [] }

def exEntryA : BudgetEntry :=
  { id := "a", entry_type := "expense", amount := 10, currency := "NOK",
    category := "Food", date := "2024-03-15", description := "" }

def exStA : AppData :=
  { selected_currency := "NOK", entries := [exEntryA], trips := [] }

/-! ### Claim theorems -/

/-- Claim C7: for both supported currency pairs the round trip
convert(convert(x, A, B), B, A) returns x, exactly in the rational model of
the amounts, since the two directions share the single rate constant 11.7:
the round trip is (x / 11.7) * 11.7, respectively (x * 11.7) / 11.7. -/
theorem C7_convert_round_trip (x : ℚ) :
    convert_currency (convert_currency x "NOK" "EUR") "EUR" "NOK" = x ∧
    convert_currency (convert_currency x "EUR" "NOK") "NOK" "EUR" = x := by
  constructor
  · show (x / 11.7) * 11.7 = x
    rw [div_mul_cancel₀]
    norm_num
  · show (x * 11.7) / 11.7 = x
    rw [mul_div_cancel_right₀]
    norm_num

/-- Claim C8: convert returns the amount unchanged whenever the two codes are
equal — any codes, supported or not — and also returns the amount unchanged,
with no error, for every pair outside the supported set
`{(NOK,EUR), (EUR,NOK)}`. -/
theorem C8_convert_identity (x : ℚ) (fromC toC : String) :
    (fromC = toC → convert_currency x fromC toC = x) ∧
    (¬((fromC = "NOK" ∧ toC = "EUR") ∨ (fromC = "EUR" ∧ toC = "NOK")) →
      convert_currency x fromC toC = x) := by
  constructor
  · intro h; simp [convert_currency, h]
  · intro h
    unfold convert_currency
    split_ifs with h1 h2 h3
    · rfl
    · exact absurd (Or.inl h2) h
    · exact absurd (Or.inr h3) h
    · rfl

/-- Witness for C8 at the unsupported code "USD": both the equal-pair case
and the out-of-set case return the amount unchanged. -/
theorem C8_witness :
    convert_currency 5 "USD" "USD" = 5 ∧ convert_currency 5 "USD" "NOK" = 5 :=
  ⟨(C8_convert_identity 5 "USD" "USD").1 rfl,
   (C8_convert_identity 5 "USD" "NOK").2 (by decide)⟩

/-- Counterexample to claim C4: at amount -1 the validation error message is
"Amount must be positive", not the claimed "amount must be positive", and at
the unrecognized kind "transfer" (with a positive amount) it is
"Type must be \x27income\x27 or \x27expense\x27" (with the kind names quoted),
not the claimed "invalid type". -/
theorem C4_counterexample :
    (add_entry "expense" (-1) "Food" "2024-03-15" "" "id1" AppData.default).1
        = Except.error "Amount must be positive" ∧
    (add_entry "expense" (-1) "Food" "2024-03-15" "" "id1" AppData.default).1
        ≠ Except.error "amount must be positive" ∧
    (add_entry "transfer" 5 "Food" "2024-03-15" "" "id1" AppData.default).1
        = Except.error "Type must be \x27income\x27 or \x27expense\x27" ∧
    (add_entry "transfer" 5 "Food" "2024-03-15" "" "id1" AppData.default).1
        ≠ Except.error "invalid type" := by
  refine ⟨rfl, ?_, rfl, ?_⟩
  · intro h
    injection h with h'
    exact absurd h' (by decide)
  · intro h
    injection h with h'
    exact absurd h' (by decide)

/-- Claim C4 (amended): add_entry fails with the ValidationError message
"Amount must be positive" for every amount ≤ 0, and — when the amount is
positive, since the amount check runs first — with the ValidationError
message "Type must be \x27income\x27 or \x27expense\x27" for every kind other than
"income" or "expense"; in both failure cases the returned state is the
unchanged input state (no entry is appended). -/
theorem C4_add_entry_validation (entry_type : String) (amount : ℚ)
    (category date description newId : String) (st : AppData) :
    (amount ≤ 0 →
      add_entry entry_type amount category date description newId st
        = (Except.error "Amount must be positive", st)) ∧
    (0 < amount → entry_type ≠ "income" → entry_type ≠ "expense" →
      add_entry entry_type amount category date description newId st
        = (Except.error "Type must be \x27income\x27 or \x27expense\x27", st)) := by
  constructor
  · intro h
    unfold add_entry
    rw [if_pos h]
  · intro h h1 h2
    unfold add_entry
    rw [if_neg (not_le.mpr h), if_pos ⟨h1, h2⟩]

/-- Witness for C4 at amount -1 and at kind "transfer" with amount 5. -/
theorem C4_witness :
    add_entry "expense" (-1) "Food" "2024-03-15" "" "id1" AppData.default
      = (Except.error "Amount must be positive", AppData.default) ∧
    add_entry "transfer" 5 "Food" "2024-03-15" "" "id1" AppData.default
      = (Except.error "Type must be \x27income\x27 or \x27expense\x27", AppData.default) :=
  ⟨(C4_add_entry_validation "expense" (-1) "Food" "2024-03-15" "" "id1"
      AppData.default).1 (by norm_num),
   (C4_add_entry_validation "transfer" 5 "Food" "2024-03-15" "" "id1"
      AppData.default).2 (by norm_num) (by decide) (by decide)⟩

/-- Claim C5: delete_entry(id) removes the entries whose identifier equals
id when one exists; when no stored entry has that identifier it fails with
the NotFound error "Entry not found" and the whole state — in particular the
entry collection, its count and its contents — is unchanged. -/
theorem C5_delete_entry_spec (id : String) (st : AppData) :
    ((∃ e ∈ st.entries, e.id = id) →
      delete_entry id st
        = (Except.ok (),
           { st with entries := st.entries.filter (fun e => e.id != id) })) ∧
    ((∀ e ∈ st.entries, e.id ≠ id) →
      delete_entry id st = (Except.error "Entry not found", st)) := by
  constructor
  · rintro ⟨e, he, heid⟩
    unfold delete_entry
    rw [if_neg]
    intro hlen
    have := List.filter_length_eq_length.mp hlen e he
    simp [heid] at this
  · intro h
    unfold delete_entry
    rw [if_pos]
    exact List.filter_length_eq_length.mpr (fun e he => by simp [h e he])

/-- Witness for C5: deleting the present id "a" removes the entry, deleting
the absent id "zz" returns the NotFound error with the state unchanged. -/
theorem C5_witness :
    delete_entry "a" exStA = (Except.ok (), { exStA with entries := [] }) ∧
    delete_entry "zz" exStA = (Except.error "Entry not found", exStA) :=
  ⟨(C5_delete_entry_spec "a" exStA).1 ⟨exEntryA, by decide, by decide⟩,
   (C5_delete_entry_spec "zz" exStA).2 (by decide)⟩

/-- Claim C6: set_currency(code) fails with the ValidationError
"Currency must be \x27NOK\x27 or \x27EUR\x27" for every code other than the two
supported codes, leaving the state unchanged; on success it replaces only
the selected display currency, with every stored entry and trip (their
currency tags and amounts included) untouched. -/
theorem C6_set_currency_spec (code : String) (st : AppData) :
    (code ≠ "NOK" → code ≠ "EUR" →
      set_currency code st
        = (Except.error "Currency must be \x27NOK\x27 or \x27EUR\x27", st)) ∧
    (code = "NOK" ∨ code = "EUR" →
      set_currency code st
        = (Except.ok (), { st with selected_currency := code })) := by
  constructor
  · intro h1 h2
    unfold set_currency
    rw [if_pos ⟨h1, h2⟩]
  · intro h
    unfold set_currency
    rw [if_neg]
    rintro ⟨h1, h2⟩
    rcases h with h | h
    exacts [h1 h, h2 h]

/-- Witness for C6: the unsupported code "ABC" is rejected with the state —
entries included — unchanged, and setting "EUR" on a NOK state rewrites only
the selected currency while the stored NOK entry keeps its amount and tag. -/
theorem C6_witness :
    set_currency "ABC" exStA
      = (Except.error "Currency must be \x27NOK\x27 or \x27EUR\x27", exStA) ∧
    set_currency "EUR" exStA
      = (Except.ok (), { exStA with selected_currency := "EUR" }) :=
  ⟨(C6_set_currency_spec "ABC" exStA).1 (by decide) (by decide),
   (C6_set_currency_spec "EUR" exStA).2 (Or.inr rfl)⟩

def exEntry100 : BudgetEntry :=
  { id := "n1", entry_type := "expense", amount := 100, currency := "NOK",
    category := "Food", date := "2024-03-15", description := "" }

def exSt100 : AppData :=
  { selected_currency := "NOK", entries := [exEntry100], trips := [] }

def exSt100EUR : AppData :=
  { selected_currency := "EUR", entries := [exEntry100], trips := [] }

/-- Claim C3: add_entry stores the entry with the display currency selected
at creation time and appends it; get_all_entries returns every entry with
its amount converted to and its currency tag rewritten as the selected
display currency, the stored entries being left untouched by the listing;
and the NOK-then-EUR scenario: an expense of 100 added under NOK is stored
with currency NOK, and after switching the display currency to EUR the
listing returns it as 100 / 11.7 EUR while the stored record keeps amount
100 and currency NOK. -/
theorem C3_currency_projection (st : AppData) :
    (∀ (entry_type : String) (amount : ℚ)
        (category date description newId : String)
        (e : BudgetEntry) (st' : AppData),
      add_entry entry_type amount category date description newId st
          = (Except.ok e, st') →
      e.currency = st.selected_currency ∧ st'.entries = st.entries ++ [e] ∧
      st'.selected_currency = st.selected_currency ∧ st'.trips = st.trips) ∧
    (get_all_entries st = st.entries.map (fun e =>
      { e with amount := convert_currency e.amount e.currency st.selected_currency,
               currency := st.selected_currency })) ∧
    (add_entry "expense" 100 "Food" "2024-03-15" "" "n1" AppData.default
        = (Except.ok exEntry100, exSt100) ∧
      exEntry100.currency = "NOK" ∧
      set_currency "EUR" exSt100 = (Except.ok (), exSt100EUR) ∧
      exSt100EUR.entries = [exEntry100] ∧
      get_all_entries exSt100EUR
        = [{ exEntry100 with amount := 1000 / 117, currency := "EUR" }]) := by
  refine ⟨?_, ?_, rfl, rfl, rfl, rfl, by decide⟩
  · intro et amt cat dt dsc nid e st' h
    unfold add_entry at h
    split at h
    · simp at h
    · split at h
      · simp at h
      · simp only [Prod.mk.injEq] at h
        obtain ⟨he, hst'⟩ := h
        have he' := Except.ok.inj he
        subst hst'
        refine ⟨?_, ?_, rfl, rfl⟩
        · rw [← he']
        · rw [← he']
  · unfold get_all_entries
    refine List.map_congr_left (fun e he => ?_)
    by_cases hc : e.currency = st.selected_currency
    · rw [if_neg (fun hne => hne hc)]
      cases e
      simp only at hc
      subst hc
      simp [convert_currency]
    · rw [if_pos hc]

/-- Witness for C3: the add-entry conjunct applied at the concrete NOK
default state. -/
theorem C3_witness :
    exEntry100.currency = AppData.default.selected_currency ∧
    exSt100.entries = AppData.default.entries ++ [exEntry100] := by
  have h := (C3_currency_projection AppData.default).1 "expense" 100 "Food"
    "2024-03-15" "" "n1" exEntry100 exSt100 rfl
  exact ⟨h.1, h.2.1⟩

/-- Claim C9: the monthly summary sums, over exactly the entries whose date
parses as YYYY-MM-DD and falls in the requested calendar month and year
(unparsable dates contribute to neither total, with no error), the converted
amounts into total_income for kind "income" and into total_expenses for any
other kind, and reports net_balance = total_income - total_expenses; in
particular one March-2024 income of 500 and expense of 200 in the display
currency yield {500, 200, 300}. -/
theorem C9_monthly_summary (month : Nat) (year : Int) (st : AppData) :
    get_monthly_summary month year st
      = { total_income := sumIncome (inMonthB month year) st.selected_currency st.entries,
          total_expenses := sumExpense (inMonthB month year) st.selected_currency st.entries,
          net_balance := sumIncome (inMonthB month year) st.selected_currency st.entries
            - sumExpense (inMonthB month year) st.selected_currency st.entries,
          currency := st.selected_currency } ∧
    get_monthly_summary 3 2024 exStMarch
      = { total_income := 500, total_expenses := 200, net_balance := 300,
          currency := "NOK" } :=
  ⟨get_monthly_summary_spec month year st, by decide⟩

/-- Counterexample to claim C1: with both a month (3) and a year (2024)
provided, a single expense entry of 50 whose date string "bad" fails to
parse is NOT excluded from the category analytics: it contributes its full
amount to the expense kind total and a binding with count 1 to its
category, instead of the claimed empty aggregation. -/
theorem C1_counterexample :
    (get_category_analytics (some 3) (some 2024) exStBadDate).total_expenses = 50 ∧
    (get_category_analytics (some 3) (some 2024) exStBadDate).total_expenses ≠ 0 ∧
    (get_category_analytics (some 3) (some 2024) exStBadDate).expense_by_category
      = [{ category := "Food", total := 50, percentage := 100, count := 1 }] := by
  refine ⟨by decide, by decide, by decide⟩

/-- Claim C1 (amended): in the category analytics an entry whose date string
fails to parse as YYYY-MM-DD is always included in the aggregation, even
when both a month and a year are provided — the filter passes every
unparsable-date entry — so on a store whose entries all have unparsable
dates the filtered analytics coincide with the unfiltered ones; when month
or year is absent such entries are likewise included (no date comparison
occurs). -/
theorem C1_unparsable_included (m : Nat) (y : Int) (st : AppData)
    (h : ∀ e ∈ st.entries, parse_date e.date = none) :
    (∀ e : BudgetEntry, parse_date e.date = none →
      passesFilter (some m) (some y) e = true) ∧
    get_category_analytics (some m) (some y) st
      = get_category_analytics none none st :=
  ⟨fun e he => by simp [passesFilter, he], analytics_filter_vacuous m y st h⟩

/-- Witness for C1 on the concrete bad-date store. -/
theorem C1_witness :
    get_category_analytics (some 3) (some 2024) exStBadDate
      = get_category_analytics none none exStBadDate :=
  (C1_unparsable_included 3 2024 exStBadDate (by decide)).2

/-- Claim C10: on every aggregation read path — weekly summary, monthly
summary, category analytics, and each monthly-trends point — total_expenses
is exactly the converted sum of the date-filtered entries whose kind is NOT
"income"; so any entry with a kind other than "income", including kinds that
are neither "income" nor "expense", is counted toward total_expenses. -/
theorem C10_nonincome_counted_as_expense :
    (∀ (week : Nat) (year : Int) (st : AppData),
      (get_weekly_summary week year st).total_expenses
        = sumExpense (inWeekB week year) st.selected_currency st.entries) ∧
    (∀ (month : Nat) (year : Int) (st : AppData),
      (get_monthly_summary month year st).total_expenses
        = sumExpense (inMonthB month year) st.selected_currency st.entries) ∧
    (∀ (month : Option Nat) (year : Option Int) (st : AppData),
      (get_category_analytics month year st).total_expenses
        = sumExpense (passesFilter month year) st.selected_currency st.entries) ∧
    (∀ (months : Nat) (today : Int) (st : AppData),
      ((get_monthly_trends months today st).all (fun p =>
        p.expenses == sumExpense (inMonthB p.month p.year)
          st.selected_currency st.entries)) = true) ∧
    (get_monthly_summary 3 2024 exStTransfer).total_expenses = 42 := by
  refine ⟨?_, ?_, ?_, ?_, by decide⟩
  · intro w y st
    rw [get_weekly_summary_spec]
  · intro m y st
    rw [get_monthly_summary_spec]
  · intro m y st
    exact (get_category_analytics_totals m y st).2
  · intro ms td st
    rw [List.all_eq_true]
    intro p hp
    exact beq_iff_eq.mpr (trends_point_spec ms td st p hp).2

def exTrip : Trip :=
  { id := "T1", name := "Oslo trip", destination := "Oslo", budget := 1000,
    currency := "NOK", start_date := "2024-01-01", end_date := "2024-01-05",
    expenses := [], total_spent := 0 }

def exStTrip : AppData :=
  { selected_currency := "NOK", entries := [], trips := [exTrip] }

def exExpE1 : TripExpense :=
  { id := "E1", amount := 25, category := "food", description := "",
    date := "2024-01-02" }

def exTrip25 : Trip :=
  { exTrip with expenses := exTrip.expenses ++ [exExpE1],
                total_spent := exTrip.total_spent + 25 }

def exStTrip25 : AppData :=
  { selected_currency := "NOK", entries := [], trips := [exTrip25] }

/-- Claim C2: a freshly created trip has an empty expense list and a zero
running total, and in every state reachable from it by any sequence of
successful add_trip_expense and delete_trip_expense operations (with fresh
uuids for the added expenses) the total_spent of every trip equals the sum of
the amounts of its expenses — including the zero-expense case, where the
sum is 0. -/
theorem C2_trip_total_spent (name destination : String) (budget : ℚ)
    (start_date end_date newId : String) (st₀ : AppData) (tr : Trip)
    (st₁ st : AppData)
    (h₀ : ∀ t ∈ st₀.trips, TripInv t)
    (hc : create_trip name destination budget start_date end_date newId st₀
      = (Except.ok tr, st₁))
    (hr : TripReachable st₁ st) :
    (tr.expenses = [] ∧ tr.total_spent = 0) ∧
    ∀ t ∈ st.trips, t.total_spent = (t.expenses.map TripExpense.amount).sum := by
  unfold create_trip at hc
  split at hc
  · simp at hc
  · simp only [Prod.mk.injEq] at hc
    obtain ⟨htr, hst₁⟩ := hc
    have htr' := Except.ok.inj htr
    have hinv₁ : ∀ t ∈ st₁.trips, TripInv t := by
      subst hst₁
      intro t ht
      simp only [List.mem_append, List.mem_singleton] at ht
      rcases ht with ht | ht
      · exact h₀ t ht
      · subst ht
        exact ⟨by simp, by simp⟩
    refine ⟨?_, fun t ht => (reachable_preserves hr hinv₁ t ht).1⟩
    rw [← htr']
    exact ⟨rfl, rfl⟩

/-- Witness for C2: create a trip in the default state, add one expense of
25 with the fresh id "E1"; in the resulting state the running total of the trip
equals the sum of its expense amounts. -/
theorem C2_witness :
    exTrip25.total_spent = (exTrip25.expenses.map TripExpense.amount).sum :=
  (C2_trip_total_spent "Oslo trip" "Oslo" 1000 "2024-01-01" "2024-01-05" "T1"
      AppData.default exTrip exStTrip exStTrip25
      (by simp [AppData.default])
      rfl
      (Relation.ReflTransGen.single
        (TripStep.add_exp "T1" 25 "food" "" "2024-01-02" "E1" exExpE1
          exStTrip exStTrip25 (by decide) rfl))).2
    exTrip25 (List.mem_singleton.mpr rfl)

end Budsjetto


